import Mathlib

/-!
Shallow embedding of `src/sensingcluespy/src/visualization.py`
(SensingClues plotting helpers) and proofs about its behaviour.

Conventions of the embedding:
* Coordinates are integers (the code never computes with them, it only
  reorders `(x, y)` into `(y, x) = (lat, lon)` pairs).
* A pandas/geopandas tabular input becomes a `List` of row structures; a
  pandas index label is carried explicitly where the code uses it
  (`plot_layer` iterates `(label, value)` pairs via `.items()`).
* Python `dict` becomes an association list with insertion-order
  semantics: assigning to an existing key replaces its value in place,
  assigning to a fresh key appends.
* Code that can raise (`KeyError` on `feature_groups[obs_type]`,
  `IndexError` on `.iloc[i]`, `AttributeError` on `.y` of a non-point
  geometry) returns `Except String`.
-/

namespace SCViz

/-- The matplotlib default color cycle, `plt.rcParams['axes.prop_cycle']`:
ten hex colors.  Both `plot_layer` and `plot_tracks` read it and index it
with `% (len(colors) - 1) = % 9`. -/
def prop_cycle_colors : List String :=
  ["#1f77b4", "#ff7f0e", "#2ca02c", "#d62728", "#9467bd",
   "#8c564b", "#e377c2", "#7f7f7f", "#bcbd22", "#17becf"]

/-- A shapely-style geometry, as far as the plotting code observes it:
points expose `.x`/`.y`; multi-part geometries can be exploded into their
parts; accessing `.y` on a non-point raises `AttributeError`. -/
inductive Geom where
  | point (x y : Int)
  | multipoint (coords : List (Int × Int))
  | linestring (coords : List (Int × Int))
  | multilinestring (parts : List (List (Int × Int)))
deriving DecidableEq, Repr

/-- geopandas `explode(index_parts=True)` restricted to one element: a
multi-part geometry yields one row per part, a single-part geometry yields
itself. -/
def Geom.explodeParts : Geom → List Geom
  | .point x y => [.point x y]
  | .multipoint coords => coords.map (fun c => .point c.1 c.2)
  | .linestring coords => [.linestring coords]
  | .multilinestring parts => parts.map (fun c => .linestring c)

/-- The lambda `point: (point.y, point.x)` of the source: succeeds only on
a point, any other geometry has no `.y` attribute. -/
def Geom.yx : Geom → Except String (Int × Int)
  | .point x y => .ok (y, x)
  | _ => .error "AttributeError: no attribute y"

/-- Python dict assignment `d[k] = v`: replace the entry in place when the
key is present (a Python dict holds a key at most once), append when it is
fresh, insertion order preserved either way. -/
def dictSet : List (String × β) → String → β → List (String × β)
  | [], k, v => [(k, v)]
  | p :: d, k, v => if p.1 = k then (k, v) :: d else p :: dictSet d k v

/-- Python dict lookup `d[k]`, `none` standing for a `KeyError`. -/
def dictGet? : List (String × β) → String → Option β
  | [], _ => none
  | p :: d, k => if p.1 = k then some p.2 else dictGet? d k

/-- The keys of an association-list dict, in insertion order. -/
def dictKeys (d : List (String × β)) : List String :=
  d.map (fun p => p.1)

/-- Element-wise `Series.apply` over fallible element conversion: the first
element that raises aborts the whole apply. -/
def mapE (f : α → Except String β) : List α → Except String (List β)
  | [] => .ok []
  | a :: l =>
    match f a with
    | .error e => .error e
    | .ok b => (mapE f l).map (fun bs => b :: bs)

/-! Observation plotting (`plot_observations`). -/

/-- One observation row: a point geometry plus the two columns the code
reads (`observationType`, `conceptLabel`). -/
structure Observation where
  x : Int
  y : Int
  observationType : String
  conceptLabel : String
deriving DecidableEq, Repr

/-- The `icon_fmt` dict handed to `folium.Icon`. -/
structure IconFmt where
  icon : Option String
  color : String
deriving DecidableEq, Repr

/-- The `if/elif/else` chain of `plot_observations` that picks an icon
format from the row's `observationType` (the style lookup). -/
def iconFmt (obs_type : String) : IconFmt :=
  if obs_type = "animal" then
    { icon := some "fa-paw", color := "orange" }
  else if obs_type = "community" ∨ obs_type = "community_work" then
    { icon := some "fa-people-group", color := "darkblue" }
  else if obs_type = "hwc" then
    { icon := some "fa-triangle-exclamation", color := "red" }
  else if obs_type = "poi" then
    { icon := some "fa-leaf", color := "darkgreen" }
  else
    { icon := none, color := "blue" }

/-- A `folium.Marker`: location `(lat, lon) = (geometry.y, geometry.x)`,
popup text `conceptLabel`, and the icon format. -/
structure Marker where
  location : Int × Int
  popup : String
  icon_fmt : IconFmt
deriving DecidableEq, Repr

/-- A `folium.FeatureGroup` holding observation markers. -/
structure ObsGroup where
  name : String
  markers : List Marker
deriving DecidableEq, Repr

/-- A `folium.plugins.HeatMap` layer: its name, its `(lat, lon)` points and
its optional gradient. -/
structure HeatLayer where
  name : String
  points : List (Int × Int)
  gradient : Option (List (Rat × String))
deriving DecidableEq, Repr

/-- The map object `plot_observations` returns, as far as the claims
observe it: the five category feature groups (keyed by `observationType`),
the heat layers, and the padding passed to `fit_bounds`. -/
structure ObsMap where
  feature_groups : List (String × ObsGroup)
  heat_layers : List HeatLayer
  padding : Option (Int × Int)
deriving DecidableEq, Repr

/-- The literal `feature_groups` dict of `plot_observations`. -/
def initial_feature_groups : List (String × ObsGroup) :=
  [("community_work", { name := "Community", markers := [] }),
   ("community", { name := "Community", markers := [] }),
   ("animal", { name := "Animal sighting", markers := [] }),
   ("hwc", { name := "Human-wildlife-conflict", markers := [] }),
   ("poi", { name := "Point of interest", markers := [] })]

/-- The marker loop of `plot_observations`: for each row compute the icon
format, then add a marker to `feature_groups[obs["observationType"]]` — a
`KeyError` (the missing key is the error payload) when that key is absent. -/
def placeMarkers : List Observation → List (String × ObsGroup) →
    Except String (List (String × ObsGroup))
  | [], groups => .ok groups
  | obs :: rest, groups =>
    let fmt := iconFmt obs.observationType
    match dictGet? groups obs.observationType with
    | none => .error obs.observationType
    | some g =>
      placeMarkers rest (dictSet groups obs.observationType
        { g with markers :=
            g.markers ++ [{ location := (obs.y, obs.x),
                            popup := obs.conceptLabel, icon_fmt := fmt }] })

/-- The heatmap section of `plot_observations`: mode `some "all"` builds one
layer over every row, `some "hwc_animal"` builds the hwc layer then the
animal layer, anything else (including `none`) builds nothing. -/
def heatLayersOf (observations : List Observation) (show_heatmap : Option String) :
    List HeatLayer :=
  if show_heatmap = some "all" then
    [{ name := "Heatmap",
       points := observations.map (fun o => (o.y, o.x)),
       gradient := none }]
  else if show_heatmap = some "hwc_animal" then
    [{ name := "HWC heatmap",
       points := ((observations.filter (fun o => o.observationType = "hwc")).map
         (fun o => (o.y, o.x))),
       gradient := some [((0.4 : Rat), "brown"), ((0.65 : Rat), "orange"),
                         ((1 : Rat), "red")] },
     { name := "Animal heatmap",
       points := ((observations.filter (fun o => o.observationType = "animal")).map
         (fun o => (o.y, o.x))),
       gradient := some [((0.4 : Rat), "blue"), ((0.65 : Rat), "lime"),
                         ((1 : Rat), "green")] }]
  else []

/-- `plot_observations`: run the marker loop over the five-group dict (any
`KeyError` aborts before the heatmap section runs), then attach the heat
layers and the `fit_bounds` padding. -/
def plot_observations (observations : List Observation)
    (show_heatmap : Option String) (padding : Option (Int × Int)) :
    Except String ObsMap := do
  let groups ← placeMarkers observations initial_feature_groups
  pure { feature_groups := groups,
         heat_layers := heatLayersOf observations show_heatmap,
         padding := padding }

/-! Track plotting (`plot_tracks`). -/

/-- A `folium.PolyLine`: its `(lat, lon)` locations, color, fixed weight 5
and opacity 0.8. -/
structure PolyLine where
  locations : List (Int × Int)
  color : String
  weight : Nat
  opacity : Rat
deriving DecidableEq, Repr

/-- The map object `plot_tracks` returns: its polylines in drawing order. -/
structure TrackMap where
  polylines : List PolyLine
deriving DecidableEq, Repr

/-- `track_geometry.explode(index_parts=True)` followed by
`reset_index(level=0, names="track_id")`: one `(track_id, part)` row per
exploded part, in order. -/
def explodedRows (track_geometry : List (String × Geom)) : List (String × Geom) :=
  track_geometry.flatMap (fun p => p.2.explodeParts.map (fun g => (p.1, g)))

/-- `Series.unique()`: the distinct values in order of first appearance. -/
def uniqueFirstSeen (l : List String) : List String :=
  l.foldl (fun acc x => if x ∈ acc then acc else acc ++ [x]) []

/-- `plot_tracks`: explode the geometry, convert every exploded part with
`point: (point.y, point.x)` (raising on a non-point part), then draw one
`folium.PolyLine` per unique `track_id` in first-seen order, holding all of
that id's converted points and colored `colors[i % (len(colors) - 1)]`. -/
def plot_tracks (track_geometry : List (String × Geom)) :
    Except String TrackMap := do
  let rows ← mapE
    (fun p => (p.2.yx).map (fun q => (p.1, q)))
    (explodedRows track_geometry)
  let track_ids := uniqueFirstSeen (rows.map (fun r => r.1))
  pure { polylines := track_ids.enum.map (fun p =>
    { locations := (rows.filter (fun r => r.1 = p.2)).map (fun r => r.2),
      color := prop_cycle_colors.getD
        (p.1 % (prop_cycle_colors.length - 1)) "",
      weight := 5,
      opacity := (0.8 : Rat) }) }

/-! Layer plotting (`plot_layer`). -/

/-- One row of the layer GeoDataFrame, with its pandas index label made
explicit: `for i, geometry in layer[geometry_col].items()` iterates
`(label, geometry)` pairs, and `layer[name_col].iloc[i]` then uses that
label as a position. -/
structure LayerRow where
  label : Nat
  geometry : Geom
  name : String
deriving DecidableEq, Repr

/-- A `folium.GeoJson` drawn into a layer feature group. -/
structure GeoJsonShape where
  geometry : Geom
  color : String
  name : String
deriving DecidableEq, Repr

/-- A `folium.FeatureGroup` holding layer shapes. -/
structure LayerGroup where
  name : String
  shapes : List GeoJsonShape
deriving DecidableEq, Repr

/-- The map object `plot_layer` returns: its feature groups in dict
insertion order. -/
structure LayerMap where
  feature_groups : List LayerGroup
deriving DecidableEq, Repr

/-- One iteration's shape: `color_id = i % (len(colors) - 1)` from the
index label `i`, and `name = layer[name_col].iloc[i]` — a positional lookup
with the label, an `IndexError` when the label is out of range. -/
def layerShape (layer : List LayerRow) (row : LayerRow) :
    Except String GeoJsonShape :=
  match layer[row.label]? with
  | none => .error "IndexError: single positional indexer is out-of-bounds"
  | some named =>
    .ok { geometry := row.geometry,
          color := prop_cycle_colors.getD
            (row.label % (prop_cycle_colors.length - 1)) "",
          name := named.name }

/-- The loop of `plot_layer`: each iteration builds a fresh
`folium.FeatureGroup(name=name)` holding just this row's `GeoJson` and
assigns it to `feature_groups[name]`, overwriting any earlier group with
that name. -/
def plot_layer_go (layer : List LayerRow) :
    List LayerRow → List (String × LayerGroup) →
    Except String (List (String × LayerGroup))
  | [], groups => .ok groups
  | row :: rest, groups =>
    match layerShape layer row with
    | .error e => .error e
    | .ok s =>
      plot_layer_go layer rest
        (dictSet groups s.name { name := s.name, shapes := [s] })

/-- `plot_layer`: run the loop, then add the dict's values to the map in
insertion order. -/
def plot_layer (layer : List LayerRow) : Except String LayerMap :=
  (plot_layer_go layer layer []).map
    (fun groups => { feature_groups := groups.map (fun p => p.2) })

/-- The shape the spec's wording (§4.4) attaches to the feature at ordinal
input position `p.1`: its own geometry and display name, colored
`colors[ordinal % (len(colors) - 1)]`. -/
def specShape (p : Nat × LayerRow) : GeoJsonShape :=
  { geometry := p.2.geometry,
    color := prop_cycle_colors.getD (p.1 % (prop_cycle_colors.length - 1)) "",
    name := p.2.name }

/-- One step of the spec-described layer fold: a fresh overlay group keyed
by the feature's own display name, overwriting any earlier group with that
name. -/
def layerStep (groups : List (String × LayerGroup)) (p : Nat × LayerRow) :
    List (String × LayerGroup) :=
  dictSet groups p.2.name { name := p.2.name, shapes := [specShape p] }

/-- Modelled from the spec (§4.4), for comparison with `plot_layer`: for
each feature, in ordinal input position `i`, one overlay group keyed by the
feature's own display name, colored `colors[i % (len(colors) - 1)]`, later
duplicate names overwriting earlier groups. -/
def plot_layer_spec (layer : List LayerRow) : LayerMap :=
  { feature_groups := (layer.enum.foldl layerStep []).map (fun p => p.2) }

/-- Whether a geometry is a point (the only geometries `.y`/`.x` work on). -/
def Geom.isPoint : Geom → Bool
  | .point _ _ => true
  | _ => false

/-- Total companion of `Geom.yx`, defaulting non-points to `(0, 0)`; it
agrees with `Geom.yx` on points. -/
def Geom.yxD : Geom → Int × Int
  | .point x y => (y, x)
  | _ => (0, 0)


/-! Dictionary lemmas. -/

theorem dictGet?_set_self (d : List (String × β)) (k : String) (v : β) :
    dictGet? (dictSet d k v) k = some v := by
  induction d with
  | nil => simp [dictSet, dictGet?]
  | cons p d ih =>
    by_cases h : p.1 = k
    · simp [dictSet, h, dictGet?]
    · simp [dictSet, h, dictGet?, ih]

theorem dictGet?_set_ne (d : List (String × β)) (k k' : String) (v : β)
    (h : k' ≠ k) : dictGet? (dictSet d k v) k' = dictGet? d k' := by
  induction d with
  | nil => simp [dictSet, dictGet?, Ne.symm h]
  | cons p d ih =>
    by_cases hp : p.1 = k
    · simp [dictSet, hp, dictGet?, Ne.symm h]
    · simp [dictSet, hp, dictGet?, ih]

theorem mem_dictSet {d : List (String × β)} {k : String} {v : β}
    {p : String × β} (h : p ∈ dictSet d k v) : p ∈ d ∨ p = (k, v) := by
  induction d with
  | nil => simp [dictSet] at h; right; exact h
  | cons q d ih =>
    by_cases hq : q.1 = k
    · simp only [dictSet, if_pos hq, List.mem_cons] at h
      rcases h with h | h
      · right; exact h
      · left; exact List.mem_cons_of_mem _ h
    · simp only [dictSet, if_neg hq, List.mem_cons] at h
      rcases h with h | h
      · left; exact h ▸ List.mem_cons_self _ _
      · rcases ih h with h' | h'
        · left; exact List.mem_cons_of_mem _ h'
        · right; exact h'

theorem dictKeys_set_of_get {d : List (String × β)} {k : String} {g : β}
    (hget : dictGet? d k = some g) (v : β) :
    dictKeys (dictSet d k v) = dictKeys d := by
  induction d with
  | nil => simp [dictGet?] at hget
  | cons p d ih =>
    by_cases hp : p.1 = k
    · simp [dictSet, hp, dictKeys]
    · simp only [dictGet?, if_neg hp] at hget
      simp [dictSet, hp, dictKeys] at ih ⊢
      exact ih hget

theorem dictGet?_eq_none_iff {d : List (String × β)} {k : String} :
    dictGet? d k = none ↔ k ∉ dictKeys d := by
  induction d with
  | nil => simp [dictGet?, dictKeys]
  | cons p d ih =>
    by_cases hp : p.1 = k
    · simp [dictGet?, hp, dictKeys]
    · simp [dictGet?, hp, dictKeys, ih, Ne.symm hp]

theorem dictGet?_of_mem_nodup {d : List (String × β)}
    (hnd : (dictKeys d).Nodup) {p : String × β} (hp : p ∈ d) :
    dictGet? d p.1 = some p.2 := by
  induction d with
  | nil => simp at hp
  | cons q d ih =>
    simp only [dictKeys, List.map_cons, List.nodup_cons] at hnd
    rcases List.mem_cons.1 hp with h | h
    · subst h; simp [dictGet?]
    · have hne : q.1 ≠ p.1 := by
        intro he
        exact hnd.1 (he ▸ List.mem_map_of_mem (fun r => r.1) h)
      simpa [dictGet?, hne] using ih hnd.2 h

theorem dictKeys_set (d : List (String × β)) (k : String) (v : β) :
    dictKeys (dictSet d k v) =
      if k ∈ dictKeys d then dictKeys d else dictKeys d ++ [k] := by
  induction d with
  | nil => simp [dictSet, dictKeys]
  | cons p d ih =>
    by_cases hp : p.1 = k
    · simp [dictSet, hp, dictKeys]
    · simp only [dictSet, if_neg hp, dictKeys, List.map_cons] at ih ⊢
      rw [ih]
      by_cases hk : k ∈ List.map (fun p => p.1) d <;>
        simp [hk, Ne.symm hp]

theorem dictKeys_set_nodup {d : List (String × β)}
    (hnd : (dictKeys d).Nodup) (k : String) (v : β) :
    (dictKeys (dictSet d k v)).Nodup := by
  rw [dictKeys_set]
  by_cases hk : k ∈ dictKeys d
  · simpa [hk] using hnd
  · simp [hk, List.nodup_append, hnd]

/-! Lemmas about the marker loop of `plot_observations`. -/

/-- The five `observationType` values that key the `feature_groups` dict of
`plot_observations`, in insertion order. -/
def known_types : List String :=
  ["community_work", "community", "animal", "hwc", "poi"]

theorem dictKeys_initial : dictKeys initial_feature_groups = known_types := rfl

/-- Updating a present key with a group of the same name leaves the
(key, group name) pairs of the dict unchanged. -/
theorem dictSet_pairs {d : List (String × ObsGroup)} {k : String}
    {g : ObsGroup} (hget : dictGet? d k = some g) {v : ObsGroup}
    (hname : v.name = g.name) :
    (dictSet d k v).map (fun p => (p.1, p.2.name)) =
      d.map (fun p => (p.1, p.2.name)) := by
  induction d with
  | nil => simp [dictGet?] at hget
  | cons p d ih =>
    by_cases hp : p.1 = k
    · simp only [dictGet?, if_pos hp, Option.some.injEq] at hget
      simp [dictSet, hp, hname, hget]
    · simp only [dictGet?, if_neg hp] at hget
      simp [dictSet, hp, ih hget]

/-- The marker loop never changes which keys the dict holds nor the names
of the groups behind them. -/
theorem placeMarkers_pairs (rows : List Observation) :
    ∀ (groups g' : List (String × ObsGroup)),
    placeMarkers rows groups = .ok g' →
    g'.map (fun p => (p.1, p.2.name)) = groups.map (fun p => (p.1, p.2.name)) := by
  induction rows with
  | nil =>
    intro groups g' h
    simp only [placeMarkers, Except.ok.injEq] at h
    rw [h]
  | cons obs rest ih =>
    intro groups g' h
    simp only [placeMarkers] at h
    cases hget : dictGet? groups obs.observationType with
    | none => rw [hget] at h; simp at h
    | some g =>
      rw [hget] at h
      rw [ih _ _ h]
      exact dictSet_pairs hget rfl

/-- A key no row refers to keeps exactly its initial group. -/
theorem placeMarkers_untouched (rows : List Observation) :
    ∀ (groups g' : List (String × ObsGroup)) (k : String),
    placeMarkers rows groups = .ok g' →
    (∀ o ∈ rows, o.observationType ≠ k) →
    dictGet? g' k = dictGet? groups k := by
  induction rows with
  | nil =>
    intro groups g' k h _
    simp only [placeMarkers, Except.ok.injEq] at h
    rw [h]
  | cons obs rest ih =>
    intro groups g' k h habs
    simp only [placeMarkers] at h
    cases hget : dictGet? groups obs.observationType with
    | none => rw [hget] at h; simp at h
    | some g =>
      rw [hget] at h
      have hk : k ≠ obs.observationType :=
        Ne.symm (habs obs (List.mem_cons_self _ _))
      rw [ih _ _ _ h (fun o ho => habs o (List.mem_cons_of_mem _ ho)),
        dictGet?_set_ne _ _ _ _ hk]

/-- A row whose `observationType` is not a key of the dict makes the
marker loop raise a `KeyError`; the error payload is itself a missing key. -/
theorem placeMarkers_error (rows : List Observation) :
    ∀ (groups : List (String × ObsGroup)) (o : Observation),
    o ∈ rows → dictGet? groups o.observationType = none →
    ∃ e, placeMarkers rows groups = .error e ∧ dictGet? groups e = none := by
  induction rows with
  | nil => intro groups o ho _; simp at ho
  | cons obs rest ih =>
    intro groups o ho hnone
    cases hget : dictGet? groups obs.observationType with
    | none =>
      refine ⟨obs.observationType, ?_, hget⟩
      simp only [placeMarkers]
      rw [hget]
    | some g =>
      have homem : o ∈ rest := by
        rcases List.mem_cons.1 ho with h | h
        · subst h; rw [hnone] at hget; exact Option.noConfusion hget
        · exact h
      have step : ∀ v : ObsGroup,
          ∃ e, placeMarkers rest (dictSet groups obs.observationType v) = .error e ∧
            dictGet? groups e = none := by
        intro v
        obtain ⟨e, he, hen⟩ := ih (dictSet groups obs.observationType v) o homem (by
          rw [dictGet?_eq_none_iff, dictKeys_set_of_get hget v, ← dictGet?_eq_none_iff]
          exact hnone)
        rw [dictGet?_eq_none_iff, dictKeys_set_of_get hget v,
          ← dictGet?_eq_none_iff] at hen
        exact ⟨e, he, hen⟩
      obtain ⟨e, he, hen⟩ := step _
      refine ⟨e, ?_, hen⟩
      simp only [placeMarkers]
      rw [hget]
      exact he

/-! Inversion lemmas for `plot_observations`. -/

theorem plot_observations_inv {rows : List Observation} {sh : Option String}
    {pad : Option (Int × Int)} {m : ObsMap}
    (h : plot_observations rows sh pad = .ok m) :
    placeMarkers rows initial_feature_groups = .ok m.feature_groups ∧
    m.heat_layers = heatLayersOf rows sh ∧ m.padding = pad := by
  unfold plot_observations at h
  cases hpm : placeMarkers rows initial_feature_groups with
  | error e => rw [hpm] at h; simp [Bind.bind, Except.bind] at h
  | ok groups =>
    rw [hpm] at h
    simp only [Bind.bind, Except.bind, Pure.pure, Except.pure, Except.ok.injEq] at h
    rw [← h]
    exact ⟨rfl, rfl, rfl⟩

theorem plot_observations_error {rows : List Observation} {sh : Option String}
    {pad : Option (Int × Int)} {e : String}
    (h : placeMarkers rows initial_feature_groups = .error e) :
    plot_observations rows sh pad = .error e := by
  unfold plot_observations
  rw [h]
  rfl

/-- A value that is none of the five known types takes the default branch
of the style chain. -/
theorem iconFmt_default {t : String} (h1 : t ≠ "animal") (h2 : t ≠ "community")
    (h3 : t ≠ "community_work") (h4 : t ≠ "hwc") (h5 : t ≠ "poi") :
    iconFmt t = { icon := none, color := "blue" } := by
  simp [iconFmt, h1, h2, h3, h4, h5]

/-! The claims about `plot_observations`. -/

/-- Claim C4: the style lookup is a fixed total mapping — "animal" maps to
the paw icon (`fa-paw`, font-awesome prefix) colored orange; "community"
and "community_work" to the people-group icon colored dark blue
(`darkblue`); "hwc" to the triangle-exclamation icon colored red; "poi" to
the leaf icon colored dark green (`darkgreen`); every other value maps to
no icon and color blue, without raising. -/
theorem c4_style_lookup_total :
    iconFmt "animal" = { icon := some "fa-paw", color := "orange" } ∧
    iconFmt "community" = { icon := some "fa-people-group", color := "darkblue" } ∧
    iconFmt "community_work" = { icon := some "fa-people-group", color := "darkblue" } ∧
    iconFmt "hwc" = { icon := some "fa-triangle-exclamation", color := "red" } ∧
    iconFmt "poi" = { icon := some "fa-leaf", color := "darkgreen" } ∧
    ∀ t : String, t ∉ known_types → iconFmt t = { icon := none, color := "blue" } := by
  refine ⟨rfl, rfl, rfl, rfl, rfl, ?_⟩
  intro t ht
  simp only [known_types, List.mem_cons, List.mem_singleton, not_or] at ht
  exact iconFmt_default ht.2.2.1 ht.2.1 ht.1 ht.2.2.2.1 ht.2.2.2.2.1

/-- Claim C9: on an empty observation collection the styling and
partitioning phases (the marker loop and the heat-layer construction) do
not raise, whatever the heatmap mode and padding are. -/
theorem c9_empty_collection_safe :
    ∀ (show_heatmap : Option String) (padding : Option (Int × Int)),
    ∃ m : ObsMap, plot_observations [] show_heatmap padding = .ok m :=
  fun sh pad =>
    ⟨{ feature_groups := initial_feature_groups,
       heat_layers := heatLayersOf [] sh, padding := pad }, rfl⟩

/-- Claim C2 counterexample: a single row with the unrecognized
`observationType` "unknown_type" is not rendered — `plot_observations`
raises a `KeyError` (payload the missing key) instead of returning a map,
so the row is dropped together with the whole call. -/
theorem c2_counterexample :
    plot_observations
      [{ x := 2, y := 2, observationType := "unknown_type",
         conceptLabel := "Mystery" }] none none = .error "unknown_type" := rfl

/-- Claim C2 (amended): a row with an unrecognized `observationType` does
fall back to the default style, but the plotter then raises a lookup
failure when placing the marker — the row (and the whole call) fails
rather than being rendered. -/
theorem c2_unknown_type_default_style_then_keyerror (rows : List Observation)
    (obs : Observation) (show_heatmap : Option String)
    (padding : Option (Int × Int))
    (hmem : obs ∈ rows) (hunk : obs.observationType ∉ known_types) :
    iconFmt obs.observationType = { icon := none, color := "blue" } ∧
    ∃ e, plot_observations rows show_heatmap padding = .error e := by
  constructor
  · simp only [known_types, List.mem_cons, List.mem_singleton, not_or] at hunk
    exact iconFmt_default hunk.2.2.1 hunk.2.1 hunk.1 hunk.2.2.2.1 hunk.2.2.2.2.1
  · have hnone : dictGet? initial_feature_groups obs.observationType = none := by
      rw [dictGet?_eq_none_iff, dictKeys_initial]; exact hunk
    obtain ⟨e, he, _⟩ := placeMarkers_error rows initial_feature_groups obs hmem hnone
    exact ⟨e, plot_observations_error he⟩

theorem c2_witness :
    iconFmt "fire" = { icon := none, color := "blue" } ∧
    ∃ e, plot_observations
        [{ x := 5, y := 6, observationType := "fire", conceptLabel := "Burn" }]
        (some "all") none = .error e :=
  c2_unknown_type_default_style_then_keyerror _
    { x := 5, y := 6, observationType := "fire", conceptLabel := "Burn" }
    (some "all") none (List.mem_cons_self _ _) (by decide)

/-- Claim C3: an observation collection containing a row whose
`observationType` is not one of the five known group keys makes
`plot_observations` raise a lookup failure (a `KeyError` whose payload is
a key absent from the `feature_groups` dict). -/
theorem c3_unknown_type_lookup_failure (rows : List Observation)
    (obs : Observation) (show_heatmap : Option String)
    (padding : Option (Int × Int))
    (hmem : obs ∈ rows) (hunk : obs.observationType ∉ known_types) :
    ∃ e, plot_observations rows show_heatmap padding = .error e ∧
      dictGet? initial_feature_groups e = none := by
  have hnone : dictGet? initial_feature_groups obs.observationType = none := by
    rw [dictGet?_eq_none_iff, dictKeys_initial]; exact hunk
  obtain ⟨e, he, hen⟩ := placeMarkers_error rows initial_feature_groups obs hmem hnone
  exact ⟨e, plot_observations_error he, hen⟩

theorem c3_witness :
    ∃ e, plot_observations
        [{ x := 0, y := 0, observationType := "animal", conceptLabel := "Lion" },
         { x := 2, y := 2, observationType := "mystery", conceptLabel := "M" }]
        none none = .error e ∧
      dictGet? initial_feature_groups e = none :=
  c3_unknown_type_lookup_failure _
    { x := 2, y := 2, observationType := "mystery", conceptLabel := "M" }
    none none (by decide) (by decide)

/-- Claim C5: whenever `plot_observations` returns a map, that map holds
exactly the five category feature groups, keyed `community_work`,
`community`, `animal`, `hwc`, `poi` with their fixed display names, whatever
the data holds; a known category with no matching row keeps its group,
present but empty. -/
theorem c5_always_five_groups (rows : List Observation)
    (show_heatmap : Option String) (padding : Option (Int × Int))
    (m : ObsMap) (_hne : rows ≠ [])
    (hok : plot_observations rows show_heatmap padding = .ok m) :
    m.feature_groups.map (fun p => (p.1, p.2.name)) =
      [("community_work", "Community"), ("community", "Community"),
       ("animal", "Animal sighting"), ("hwc", "Human-wildlife-conflict"),
       ("poi", "Point of interest")] ∧
    ∀ k ∈ known_types, (∀ o ∈ rows, o.observationType ≠ k) →
      ∃ g : ObsGroup, dictGet? m.feature_groups k = some g ∧ g.markers = [] := by
  obtain ⟨hpm, -, -⟩ := plot_observations_inv hok
  constructor
  · rw [placeMarkers_pairs rows _ _ hpm]
    rfl
  · intro k hk habs
    rw [placeMarkers_untouched rows _ _ k hpm habs]
    simp only [known_types, List.mem_cons, List.not_mem_nil, or_false] at hk
    rcases hk with h | h | h | h | h <;> subst h <;> exact ⟨_, rfl, rfl⟩

theorem c5_witness :
    ∃ m, plot_observations
        [{ x := 1, y := 2, observationType := "poi", conceptLabel := "Spring" }]
        none none = .ok m ∧
      (m.feature_groups.map (fun p => (p.1, p.2.name)) =
        [("community_work", "Community"), ("community", "Community"),
         ("animal", "Animal sighting"), ("hwc", "Human-wildlife-conflict"),
         ("poi", "Point of interest")] ∧
      ∀ k ∈ known_types,
        (∀ o ∈ [({ x := 1, y := 2, observationType := "poi",
                   conceptLabel := "Spring" } : Observation)],
          o.observationType ≠ k) →
        ∃ g : ObsGroup, dictGet? m.feature_groups k = some g ∧ g.markers = []) :=
  ⟨_, rfl, c5_always_five_groups _ none none _ (by decide) rfl⟩

/-- Claim C6: heatmap mode "all" yields exactly one density layer holding
every row's `(lat, lon)` point; mode "hwc_animal" yields exactly two, the
first holding exactly the points of the "hwc" rows and the second exactly
the points of the "animal" rows; any other mode yields no density layer. -/
theorem c6_heatmap_modes (rows : List Observation)
    (show_heatmap : Option String) (padding : Option (Int × Int))
    (m : ObsMap)
    (hok : plot_observations rows show_heatmap padding = .ok m) :
    (show_heatmap = some "all" →
      m.heat_layers.map (fun hl => hl.points) =
        [rows.map (fun o => (o.y, o.x))]) ∧
    (show_heatmap = some "hwc_animal" →
      m.heat_layers.map (fun hl => hl.points) =
        [(rows.filter (fun o => o.observationType = "hwc")).map
           (fun o => (o.y, o.x)),
         (rows.filter (fun o => o.observationType = "animal")).map
           (fun o => (o.y, o.x))]) ∧
    (show_heatmap ≠ some "all" → show_heatmap ≠ some "hwc_animal" →
      m.heat_layers = []) := by
  obtain ⟨-, hheat, -⟩ := plot_observations_inv hok
  refine ⟨?_, ?_, ?_⟩
  · intro hm; rw [hheat, hm]; simp [heatLayersOf]
  · intro hm; rw [hheat, hm]; simp [heatLayersOf]
  · intro h1 h2; rw [hheat]; simp [heatLayersOf, h1, h2]

theorem c6_witness :
    ∃ m, plot_observations
        [{ x := 0, y := 0, observationType := "animal", conceptLabel := "Giraffe" },
         { x := 1, y := 1, observationType := "hwc", conceptLabel := "Conflict" }]
        (some "hwc_animal") none = .ok m ∧
      m.heat_layers.map (fun hl => hl.points) = [[(1, 1)], [(0, 0)]] :=
  ⟨_, rfl, by
    have h := c6_heatmap_modes
      [{ x := 0, y := 0, observationType := "animal", conceptLabel := "Giraffe" },
       { x := 1, y := 1, observationType := "hwc", conceptLabel := "Conflict" }]
      (some "hwc_animal") none _ rfl
    rw [h.2.1 rfl]
    rfl⟩

/-! Lemmas about `plot_tracks`. -/

/-- When every exploded part is a point (the only inputs on which the
source's `apply` does not raise), the conversion succeeds and is the
pointwise `(y, x)` swap. -/
theorem mapE_yx_ok (l : List (String × Geom))
    (h : ∀ p ∈ l, p.2.isPoint = true) :
    mapE (fun p => (p.2.yx).map (fun q => (p.1, q))) l =
      .ok (l.map (fun p => (p.1, p.2.yxD))) := by
  induction l with
  | nil => rfl
  | cons p l ih =>
    have hp := h p (List.mem_cons_self _ _)
    cases hg : p.2 with
    | point x y =>
      simp only [mapE, hg, ih (fun q hq => h q (List.mem_cons_of_mem _ hq))]
      simp [Geom.yx, Geom.yxD, Except.map, hg]
    | multipoint c => rw [hg] at hp; simp [Geom.isPoint] at hp
    | linestring c => rw [hg] at hp; simp [Geom.isPoint] at hp
    | multilinestring c => rw [hg] at hp; simp [Geom.isPoint] at hp

/-- Inversion of a successful `plot_tracks` run: the polylines are one per
unique track id, in first-seen order, each holding all of that id's
converted points. -/
theorem plot_tracks_inv {tg : List (String × Geom)} {m : TrackMap}
    (h : plot_tracks tg = .ok m) :
    ∃ rows, mapE (fun p => (p.2.yx).map (fun q => (p.1, q)))
        (explodedRows tg) = .ok rows ∧
      m.polylines = (uniqueFirstSeen (rows.map (fun r => r.1))).enum.map
        (fun p =>
          { locations := (rows.filter (fun r => r.1 = p.2)).map (fun r => r.2),
            color := prop_cycle_colors.getD
              (p.1 % (prop_cycle_colors.length - 1)) "",
            weight := 5,
            opacity := (0.8 : Rat) }) := by
  unfold plot_tracks at h
  cases hr : mapE (fun p => (p.2.yx).map (fun q => (p.1, q)))
      (explodedRows tg) with
  | error e => rw [hr] at h; simp [Bind.bind, Except.bind] at h
  | ok rows =>
    rw [hr] at h
    simp only [Bind.bind, Except.bind, Pure.pure, Except.pure,
      Except.ok.injEq] at h
    exact ⟨rows, rfl, by rw [← h]⟩

/-- Claim C1 counterexample: track "T1" stored as two disjoint parts and
track "T2" as one part (three disjoint parts in total, as counted by the
explode step) are drawn as two line segments, not three — one `PolyLine`
per track id, the parts of "T1" concatenated into a single line. -/
theorem c1_counterexample :
    (plot_tracks [("T1", Geom.multipoint [(0, 0), (1, 1)]),
                  ("T2", Geom.multipoint [(2, 2)])]).map
        (fun m => m.polylines.length) = .ok 2 ∧
    (([("T1", Geom.multipoint [(0, 0), (1, 1)]),
       ("T2", Geom.multipoint [(2, 2)])] : List (String × Geom)).map
        (fun p => p.2.explodeParts.length)).sum = 3 ∧
    (2 : Nat) ≠ 3 :=
  ⟨rfl, rfl, by decide⟩

/-- Claim C1 (amended): for every track input whose exploded parts are all
points (the only inputs on which the conversion step does not raise),
`plot_tracks` draws exactly one line per distinct track id in first-seen
order — a track split into several disjoint parts yields a single line
holding all of its parts' points concatenated, not one line per part. -/
theorem c1_one_polyline_per_track_id (tg : List (String × Geom))
    (hpts : ∀ p ∈ explodedRows tg, p.2.isPoint = true) :
    ∃ m, plot_tracks tg = .ok m ∧
      m.polylines.length =
        (uniqueFirstSeen ((explodedRows tg).map (fun r => r.1))).length ∧
      ∀ i (hi : i < m.polylines.length)
        (hi' : i < (uniqueFirstSeen
          ((explodedRows tg).map (fun r => r.1))).length),
        (m.polylines.get ⟨i, hi⟩).locations =
          ((explodedRows tg).filter (fun r =>
            r.1 = (uniqueFirstSeen
              ((explodedRows tg).map (fun r => r.1))).get ⟨i, hi'⟩)).map
            (fun r => r.2.yxD) := by
  have hrows := mapE_yx_ok (explodedRows tg) hpts
  have hids : ((explodedRows tg).map (fun p => (p.1, p.2.yxD))).map
      (fun r => r.1) = (explodedRows tg).map (fun r => r.1) := by
    simp [List.map_map, Function.comp]
  have hex : ∃ m, plot_tracks tg = .ok m := by
    unfold plot_tracks
    rw [hrows]
    exact ⟨_, rfl⟩
  obtain ⟨m, hok⟩ := hex
  obtain ⟨rows, hr, hpoly⟩ := plot_tracks_inv hok
  rw [hrows] at hr
  injection hr with hr
  subst hr
  refine ⟨m, hok, ?_, ?_⟩
  · simp [hpoly, hids, List.enum_length]
  · intro i hi hi'
    simp only [List.get_eq_getElem, hpoly, hids, List.getElem_map,
      List.getElem_enum]
    rw [List.filter_map, List.map_map]
    rfl

theorem c1_witness :
    ∃ m, plot_tracks [("T1", Geom.multipoint [(0, 0), (1, 1)]),
        ("T2", Geom.multipoint [(2, 2)])] = .ok m ∧
      m.polylines.length =
        (uniqueFirstSeen ((explodedRows [("T1", Geom.multipoint [(0, 0), (1, 1)]),
          ("T2", Geom.multipoint [(2, 2)])]).map (fun r => r.1))).length ∧
      ∀ i (hi : i < m.polylines.length)
        (hi' : i < (uniqueFirstSeen
          ((explodedRows [("T1", Geom.multipoint [(0, 0), (1, 1)]),
            ("T2", Geom.multipoint [(2, 2)])]).map (fun r => r.1))).length),
        (m.polylines.get ⟨i, hi⟩).locations =
          ((explodedRows [("T1", Geom.multipoint [(0, 0), (1, 1)]),
            ("T2", Geom.multipoint [(2, 2)])]).filter (fun r =>
            r.1 = (uniqueFirstSeen
              ((explodedRows [("T1", Geom.multipoint [(0, 0), (1, 1)]),
                ("T2", Geom.multipoint [(2, 2)])]).map
                (fun r => r.1))).get ⟨i, hi'⟩)).map
            (fun r => r.2.yxD) :=
  c1_one_polyline_per_track_id
    [("T1", Geom.multipoint [(0, 0), (1, 1)]), ("T2", Geom.multipoint [(2, 2)])]
    (by decide)

/-- Claim C7 counterexample: a two-feature layer whose pandas index is
`[1, 0]` (both features named "A", distinct geometries).  The ordinal rule
of the claim colors the surviving feature — ordinal position 1 — with
color index 1, but `plot_layer` colors it with color index 0, its index
label: the layer-plotter indexes the palette with the row's index label,
not with the feature's ordinal position in the input. -/
theorem c7_counterexample :
    plot_layer [{ label := 1, geometry := Geom.point 0 0, name := "A" },
                { label := 0, geometry := Geom.point 1 1, name := "A" }] =
      .ok ⟨[⟨"A", [⟨Geom.point 1 1, "#1f77b4", "A"⟩]⟩]⟩ ∧
    plot_layer_spec [{ label := 1, geometry := Geom.point 0 0, name := "A" },
                     { label := 0, geometry := Geom.point 1 1, name := "A" }] =
      ⟨[⟨"A", [⟨Geom.point 1 1, "#ff7f0e", "A"⟩]⟩]⟩ ∧
    ("#1f77b4" : String) ≠ "#ff7f0e" :=
  ⟨rfl, rfl, by decide⟩

/-- Claim C7 (amended): the track-plotter colors the line drawn at ordinal
position `i` (the position of its track id in first-seen order) with color
index `i % (palette size - 1)`; the layer-plotter colors a feature with
color index `label % (palette size - 1)` where `label` is the row's pandas
index label — the same ordinal rule only when the layer's index is the
default range. -/
theorem c7_color_assignment :
    (∀ (tg : List (String × Geom)) (m : TrackMap),
      plot_tracks tg = .ok m →
      ∀ i (hi : i < m.polylines.length),
        (m.polylines.get ⟨i, hi⟩).color =
          prop_cycle_colors.getD (i % (prop_cycle_colors.length - 1)) "") ∧
    (∀ (layer : List LayerRow) (row : LayerRow) (s : GeoJsonShape),
      layerShape layer row = .ok s →
      s.color =
        prop_cycle_colors.getD
          (row.label % (prop_cycle_colors.length - 1)) "") := by
  constructor
  · intro tg m h i hi
    obtain ⟨rows, -, hpoly⟩ := plot_tracks_inv h
    simp only [List.get_eq_getElem, hpoly, List.getElem_map, List.getElem_enum]
  · intro layer row s h
    unfold layerShape at h
    cases hrow : layer[row.label]? with
    | none => rw [hrow] at h; simp at h
    | some named =>
      rw [hrow] at h
      simp only [Except.ok.injEq] at h
      rw [← h]

/-! Lemmas about `plot_layer`. -/

/-- Under a default range index, every row's label looks the row itself up
positionally. -/
theorem get?_of_default_labels {layer : List LayerRow}
    (hdef : layer.map (fun r => r.label) = List.range layer.length) :
    ∀ r ∈ layer, layer[r.label]? = some r := by
  intro r hr
  obtain ⟨i, hi⟩ := List.mem_iff_getElem?.1 hr
  have hlt : i < layer.length := (List.getElem?_eq_some_iff.1 hi).1
  have hlab : r.label = i := by
    have h1 : (layer.map (fun r => r.label))[i]? = some r.label := by
      rw [List.getElem?_map, hi]
      rfl
    rw [hdef, List.getElem?_range hlt] at h1
    exact ((Option.some.injEq _ _).mp h1).symm
  rw [hlab]
  exact hi

/-- The loop of `plot_layer` refines the spec-described fold whenever each
processed row's label is its ordinal position and looks itself up. -/
theorem plot_layer_go_eq_spec (layer : List LayerRow) :
    ∀ (rest : List LayerRow) (k : Nat) (gs : List (String × LayerGroup)),
    rest.map (fun r => r.label) = List.range' k rest.length →
    (∀ r ∈ rest, layer[r.label]? = some r) →
    plot_layer_go layer rest gs =
      .ok ((List.enumFrom k rest).foldl layerStep gs) := by
  intro rest
  induction rest with
  | nil => intro k gs _ _; rfl
  | cons r rest ih =>
    intro k gs hmap hall
    rw [List.map_cons, List.length_cons, List.range'_succ] at hmap
    injection hmap with hlab hrest
    have hget : layer[r.label]? = some r := hall r (List.mem_cons_self _ _)
    have hshape : layerShape layer r = .ok (specShape (k, r)) := by
      unfold layerShape
      rw [hget]
      simp [specShape, hlab]
    simp only [plot_layer_go, hshape]
    rw [List.enumFrom_cons, List.foldl_cons]
    exact ih (k + 1) _ hrest (fun q hq => hall q (List.mem_cons_of_mem _ hq))

/-- Under a default range index, `plot_layer` succeeds and returns exactly
the spec-described map. -/
theorem plot_layer_default_eq_spec {layer : List LayerRow}
    (hdef : layer.map (fun r => r.label) = List.range layer.length) :
    plot_layer layer = .ok (plot_layer_spec layer) := by
  unfold plot_layer plot_layer_spec
  rw [plot_layer_go_eq_spec layer layer 0 []
    (by rw [hdef, List.range_eq_range']) (get?_of_default_labels hdef)]
  rfl

/-- Every entry the layer fold produces either was in the seed dict or is
the single-shape group of one of the folded features. -/
theorem foldl_layerStep_mem :
    ∀ (l : List (Nat × LayerRow)) (gs : List (String × LayerGroup))
      (p : String × LayerGroup), p ∈ l.foldl layerStep gs →
    p ∈ gs ∨ ∃ q ∈ l,
      p = (q.2.name, { name := q.2.name, shapes := [specShape q] }) := by
  intro l
  induction l with
  | nil => intro gs p hp; exact Or.inl hp
  | cons q l ih =>
    intro gs p hp
    rw [List.foldl_cons] at hp
    rcases ih _ p hp with h | h
    · rcases mem_dictSet h with h' | h'
      · exact Or.inl h'
      · exact Or.inr ⟨q, List.mem_cons_self _ _, h'⟩
    · obtain ⟨q', hq', he⟩ := h
      exact Or.inr ⟨q', List.mem_cons_of_mem _ hq', he⟩

/-- The layer fold keeps every dict value's group name equal to its key. -/
theorem foldl_layerStep_names :
    ∀ (l : List (Nat × LayerRow)) (gs : List (String × LayerGroup)),
    (∀ p ∈ gs, p.2.name = p.1) →
    ∀ p ∈ l.foldl layerStep gs, p.2.name = p.1 := by
  intro l
  induction l with
  | nil => intro gs h p hp; exact h p hp
  | cons q l ih =>
    intro gs h p hp
    rw [List.foldl_cons] at hp
    refine ih _ ?_ p hp
    intro q' hq'
    rcases mem_dictSet hq' with h' | h'
    · exact h q' h'
    · rw [h']
 
/-- The layer fold preserves key uniqueness. -/
theorem foldl_layerStep_nodup :
    ∀ (l : List (Nat × LayerRow)) (gs : List (String × LayerGroup)),
    (dictKeys gs).Nodup → (dictKeys (l.foldl layerStep gs)).Nodup := by
  intro l
  induction l with
  | nil => intro gs h; exact h
  | cons q l ih =>
    intro gs h
    rw [List.foldl_cons]
    exact ih _ (dictKeys_set_nodup h _ _)

/-- Searching the dict's values by group name is the dict lookup, as long
as every value is named after its key. -/
theorem values_find?_eq_dictGet? :
    ∀ (d : List (String × LayerGroup)),
    (∀ p ∈ d, p.2.name = p.1) → ∀ nm : String,
    (d.map (fun p => p.2)).find? (fun g => g.name = nm) = dictGet? d nm := by
  intro d
  induction d with
  | nil => intro _ nm; rfl
  | cons p d ih =>
    intro h nm
    have hp := h p (List.mem_cons_self _ _)
    rw [List.map_cons]
    by_cases hk : p.1 = nm
    · rw [List.find?_cons_of_pos _ (by simp [hp, hk])]
      simp [dictGet?, hk]
    · rw [List.find?_cons_of_neg _ (by simp [hp, hk])]
      simp only [dictGet?, if_neg hk]
      exact ih (fun q hq => h q (List.mem_cons_of_mem _ hq)) nm

/-- The second component of an enumerated pair is a member of the
enumerated list. -/
theorem snd_mem_of_mem_enumFrom :
    ∀ (l : List α) (n : Nat) (q : Nat × α),
    q ∈ List.enumFrom n l → q.2 ∈ l := by
  intro l
  induction l with
  | nil => intro n q hq; simp [List.enumFrom] at hq
  | cons a l ih =>
    intro n q hq
    rw [List.enumFrom_cons] at hq
    rcases List.mem_cons.1 hq with h | h
    · rw [h]; exact List.mem_cons_self _ _
    · exact List.mem_cons_of_mem _ (ih _ q h)

/-- Claim C10: the layer-plotter uses each row's index label both as the
palette index and as the positional lookup of the row's display name, so
the documented name/color assignment (each feature with its own name,
colored by ordinal input position — `plot_layer_spec`) holds whenever the
index is the default range `0..n-1`; for another index a feature can be
paired with a different row's name and color, or the positional lookup
raises an `IndexError`. -/
theorem c10_layer_index_label (layer : List LayerRow)
    (hdef : layer.map (fun r => r.label) = List.range layer.length) :
    plot_layer layer = .ok (plot_layer_spec layer) ∧
    (∃ bad : List LayerRow, ∃ mm : LayerMap,
      plot_layer bad = .ok mm ∧ mm ≠ plot_layer_spec bad) ∧
    (∃ bad2 : List LayerRow, ∃ e, plot_layer bad2 = .error e) := by
  refine ⟨plot_layer_default_eq_spec hdef, ?_, ?_⟩
  · exact ⟨[⟨1, Geom.point 5 5, "X"⟩, ⟨0, Geom.point 6 6, "Y"⟩], _, rfl,
      by decide⟩
  · exact ⟨[⟨5, Geom.point 0 0, "Z"⟩], _, rfl⟩

theorem c10_witness :
    plot_layer [⟨0, Geom.point 0 0, "A"⟩, ⟨1, Geom.point 1 1, "B"⟩] =
      .ok (plot_layer_spec
        [⟨0, Geom.point 0 0, "A"⟩, ⟨1, Geom.point 1 1, "B"⟩]) ∧
    (∃ bad : List LayerRow, ∃ mm : LayerMap,
      plot_layer bad = .ok mm ∧ mm ≠ plot_layer_spec bad) ∧
    (∃ bad2 : List LayerRow, ∃ e, plot_layer bad2 = .error e) :=
  c10_layer_index_label
    [⟨0, Geom.point 0 0, "A"⟩, ⟨1, Geom.point 1 1, "B"⟩] (by decide)

/-- Claim C8: when two features of a layer (with its default range index)
share a display name, the later feature's overlay group silently
overwrites the earlier one — the call still succeeds, the group found
under that name holds exactly the later feature's geometry, and the
earlier feature's geometry (here unique to it) appears nowhere in the
returned map. -/
theorem c8_duplicate_layer_names_overwrite (front : List LayerRow)
    (r1 r2 : LayerRow)
    (hdef : (front ++ [r2]).map (fun r => r.label) =
      List.range (front ++ [r2]).length)
    (_hmem : r1 ∈ front) (hname : r1.name = r2.name)
    (hgeom : ∀ r ∈ front ++ [r2], r.geometry = r1.geometry → r = r1)
    (hne2 : r1.geometry ≠ r2.geometry) :
    ∃ m, plot_layer (front ++ [r2]) = .ok m ∧
      m.feature_groups.find? (fun g => g.name = r2.name) =
        some ⟨r2.name, [⟨r2.geometry,
          prop_cycle_colors.getD
            (front.length % (prop_cycle_colors.length - 1)) "",
          r2.name⟩]⟩ ∧
      ∀ g ∈ m.feature_groups, ∀ s ∈ g.shapes,
        s.geometry ≠ r1.geometry := by
  have heq := plot_layer_default_eq_spec hdef
  have henum : (front ++ [r2]).enum =
      List.enumFrom 0 front ++ [(front.length, r2)] := by
    show List.enumFrom 0 (front ++ [r2]) = _
    rw [List.enumFrom_append]
    simp [List.enumFrom_cons]
  have hD : (front ++ [r2]).enum.foldl layerStep [] =
      layerStep ((List.enumFrom 0 front).foldl layerStep [])
        (front.length, r2) := by
    rw [henum, List.foldl_append, List.foldl_cons, List.foldl_nil]
  have hnames : ∀ p ∈ (front ++ [r2]).enum.foldl layerStep [],
      p.2.name = p.1 :=
    foldl_layerStep_names _ [] (by simp)
  have hnd : (dictKeys ((front ++ [r2]).enum.foldl layerStep [])).Nodup :=
    foldl_layerStep_nodup _ [] (by simp [dictKeys])
  have hlookup : dictGet? ((front ++ [r2]).enum.foldl layerStep [])
      r2.name = some ⟨r2.name, [specShape (front.length, r2)]⟩ := by
    rw [hD]
    exact dictGet?_set_self _ _ _
  refine ⟨plot_layer_spec (front ++ [r2]), heq, ?_, ?_⟩
  · show ((plot_layer_spec (front ++ [r2])).feature_groups).find?
      (fun g => g.name = r2.name) = _
    unfold plot_layer_spec
    rw [values_find?_eq_dictGet? _ hnames r2.name, hlookup]
    rfl
  · intro g hg s hs hcontra
    unfold plot_layer_spec at hg
    simp only [List.mem_map] at hg
    obtain ⟨p, hpD, hpg⟩ := hg
    rcases foldl_layerStep_mem _ [] p hpD with h | h
    · simp at h
    · obtain ⟨q, hq, hpe⟩ := h
      have hsq : s = specShape q := by
        rw [← hpg] at hs
        rw [hpe] at hs
        simpa using hs
      have hqgeom : q.2.geometry = r1.geometry := by
        rw [hsq] at hcontra
        exact hcontra
      have hq2 : q.2 = r1 :=
        hgeom q.2 (snd_mem_of_mem_enumFrom _ _ q hq) hqgeom
      have hkey : p.1 = r2.name := by
        rw [hpe]
        show q.2.name = r2.name
        rw [hq2, hname]
      have hval := dictGet?_of_mem_nodup hnd hpD
      rw [hkey, hlookup] at hval
      have hshapes : p.2 = (⟨r2.name, [specShape (front.length, r2)]⟩ :
          LayerGroup) := by
        injection hval with h
        exact h.symm
      rw [hpe] at hshapes
      have : specShape q = specShape (front.length, r2) := by
        have h2 := congrArg LayerGroup.shapes hshapes
        simpa using h2
      have : q.2.geometry = r2.geometry :=
        congrArg GeoJsonShape.geometry this
      rw [hq2] at this
      exact hne2 this

theorem c8_witness :
    ∃ m, plot_layer [⟨0, Geom.point 0 0, "A"⟩,
        ⟨1, Geom.point 1 1, "A"⟩] = .ok m ∧
      m.feature_groups.find? (fun g => g.name = "A") =
        some ⟨"A", [⟨Geom.point 1 1,
          prop_cycle_colors.getD
            (1 % (prop_cycle_colors.length - 1)) "", "A"⟩]⟩ ∧
      ∀ g ∈ m.feature_groups, ∀ s ∈ g.shapes,
        s.geometry ≠ Geom.point 0 0 :=
  c8_duplicate_layer_names_overwrite [⟨0, Geom.point 0 0, "A"⟩]
    ⟨0, Geom.point 0 0, "A"⟩ ⟨1, Geom.point 1 1, "A"⟩
    (by decide) (by decide) rfl (by decide) (by decide)

end SCViz
